import Mathlib

/-!
Verification of the event-extraction pipeline of the sf-events repository.

The development shallowly embeds the extraction engine of
`src/process-html.js` (`extractEvents`, the grouping step `eventsByRegion`)
and the two-pass "today" filters of the earlier pipeline revision
(`todaysEvents` and `strictlyFilteredEvents` in `src/unnamed/part_002`).

External collaborators of the code (the cheerio selector engine, `JSON.parse`,
the JavaScript `Date` class, the WHATWG `URL` class) are represented by their
outputs: documents are modelled as already-parsed structures (selector
resolution functions, parsed JSON event shapes), and the `Date`/`URL`
operations are fields of an `Env` record of external functions.  All string
manipulation performed by the repository's own code (lower-casing, substring
tests, whitespace collapapsing, the hand-built regular expressions) is embedded
concretely below, over the ASCII fragment the repository exercises.
-/

/-! ## String helpers (embedding JavaScript string operations over ASCII) -/

/-- JavaScript whitespace (the ASCII part of `\s`): space, tab, newline,
carriage return, vertical tab, form feed. -/
def jsWs (c : Char) : Bool :=
  c = ' ' || c = '\t' || c = '\n' || c = '\r' || c = '\x0b' || c = '\x0c'

/-- `String.prototype.toLowerCase` restricted to ASCII letters. -/
def lowerStr (s : String) : String :=
  String.mk (s.data.map Char.toLower)

/-- `String.prototype.trim` (ASCII whitespace). -/
def jsTrim (s : String) : String :=
  String.mk (((s.data.dropWhile jsWs).reverse.dropWhile jsWs).reverse)

/-- Boolean list-prefix test. -/
def listPrefix : List Char → List Char → Bool
  | [], _ => true
  | _ :: _, [] => false
  | a :: as, b :: bs => a = b && listPrefix as bs

def strInclAux (pat : List Char) : List Char → Bool
  | [] => pat.isEmpty
  | c :: cs => listPrefix pat (c :: cs) || strInclAux pat cs

/-- `hay.includes(pat)` of JavaScript. -/
def strIncludes (hay pat : String) : Bool :=
  strInclAux pat.data hay.data

/-- `hay.startsWith(pat)` of JavaScript. -/
def strStartsWith (hay pat : String) : Bool :=
  listPrefix pat.data hay.data

/-- `hay.endsWith(pat)` of JavaScript. -/
def strEndsWith (hay pat : String) : Bool :=
  listPrefix pat.data.reverse hay.data.reverse

/-- A JavaScript regex word character (`\w`): ASCII letter, digit or underscore. -/
def isWordChar (c : Char) : Bool :=
  c.isAlphanum || c = '_'

def bndAux (pat : List Char) : Option Char → List Char → Bool
  | _, [] => false
  | prev, c :: cs =>
    ((match prev with
      | none => true
      | some p => !isWordChar p) &&
     listPrefix pat (c :: cs) &&
     (match ((c :: cs).drop pat.length).head? with
      | none => true
      | some q => !isWordChar q)) || bndAux pat (some c) cs

/-- Test for the regular expression `\b<pat>\b` where `pat` is a literal token
whose first and last characters are word characters (the code only builds such
patterns: digit/digit pairs joined by `.` or `/`). -/
def boundedIncludes (hay pat : String) : Bool :=
  bndAux pat.data none hay.data

def collapseGo : Bool → List Char → List Char
  | _, [] => []
  | prevWs, c :: cs =>
    if jsWs c then
      if prevWs then collapseGo true cs else ' ' :: collapseGo true cs
    else c :: collapseGo false cs

/-- `s.replace(/\s+/g, ' ')`: every maximal whitespace run becomes one space. -/
def collapseWs (s : String) : String :=
  String.mk (collapseGo false s.data)

def joinSpace : List String → String
  | [] => ""
  | [s] => s
  | s :: rest => s ++ " " ++ joinSpace rest

def splitAux (sep : Char) : List Char → List Char → List String
  | acc, [] => [String.mk acc.reverse]
  | acc, c :: cs =>
    if c = sep then String.mk acc.reverse :: splitAux sep [] cs
    else splitAux sep (c :: acc) cs

/-- `s.split(sep)` for a single-character separator. -/
def splitChar (sep : Char) (s : String) : List String :=
  splitAux sep [] s.data

/-- Test for the regular expression `^\d+<sep>\d+$`. -/
def isNumSepNum (s : String) (sep : Char) : Bool :=
  match splitChar sep s with
  | [a, b] => !a.isEmpty && !b.isEmpty && a.data.all Char.isDigit && b.data.all Char.isDigit
  | _ => false

/-- `Number(s)` for a plain digit string. -/
def numOf (s : String) : Nat :=
  s.data.foldl (fun n c => n * 10 + (c.toNat - '0'.toNat)) 0

/-! ## Data model -/

/-- The run's reference date ("today"): day of month, 1-based month, year and
JavaScript day-of-week (`getDay()`, 0 = Sunday).  The code reads these from
`new Date()` at startup (`todayDate`, `todayMonth`, `todayYear`,
`today.getDay()`). -/
structure RefDate where
  day : Nat
  month : Nat
  year : Nat
  weekday : Nat
deriving DecidableEq, Repr

/-- The observable part of a JavaScript `Date` object used by the code:
`getDate()`, `getMonth()` (0-based, kept as an integer) and `getFullYear()`. -/
structure DateVal where
  day : Nat
  month0 : Int
  year : Nat
deriving DecidableEq, Repr

/-- External functions supplied by the JavaScript runtime: `Date` string
parsing (`none` = Invalid Date), the two `toLocale*String` formatters applied
to a possibly-invalid date, and WHATWG `URL` resolution
(`resolveUrl base rel`, `none` = constructor threw). -/
structure Env where
  parse : String → Option DateVal
  fmtWdMD : Option DateVal → String
  fmtHM : Option DateVal → String
  resolveUrl : String → String → Option String

/-- The canonical output record pushed by `extractEvents`. -/
structure EventRec where
  title : String
  date : String
  time : String
  url : String
  venue : String
  region : String
  source_url : String
  is_today : Bool
deriving DecidableEq, Repr

/-- One row of `sources.csv` as consumed by `extractEvents`.  An empty string
stands for a missing (JavaScript-falsy) field. -/
structure Source where
  source : String
  region : String
  extraction_type : String
  container_selector : String
  title_selector : String
  date_selector : String
  time_selector : String
  url_selector : String
deriving DecidableEq, Repr

/-- A DOM element as observed through cheerio: its `.text()`, its `href`
attribute (if any), and the `.text()` of its `a` descendants in document
order (used by the title fallback `find(sel).find('a')`). -/
structure Elem where
  text : String
  href : Option String
  anchorTexts : List String

/-- An event container: `find sel` returns the descendants matching `sel`,
in document order (cheerio `$(this).find(sel)`). -/
structure Container where
  find : String → List Elem

/-- One entry of `search_data.events.results` in Eventbrite SERVER_DATA;
an empty string models an absent/falsy field, `primary_venue_name` models
`primary_venue?.name`. -/
structure EbResult where
  name : String
  start_date : String
  start_time : String
  url : String
  primary_venue_name : String

/-- A parsed `window.__SERVER_DATA__` object; `results` is
`search_data.events.results` when the whole chain is present. -/
structure ServerData where
  results : Option (List EbResult)

/-- A schema.org style event object as navigated by the JSON-LD branches:
`name`, `startDate`, `datePublished`, `url`, the offers url
(`offers?.url` / `offers[0]?.url`) and `location?.name`;
an empty string models an absent field. -/
structure LdEvent where
  name : String
  startDate : String
  datePublished : String
  url : String
  offers_url : String
  location_name : String

/-- A `<script type="application/ld+json">` block after `JSON.parse`:
a parse error, a single object (with its `@type === 'Event'` flag),
an array of objects (each with its flag), an object carrying an
`@graph` array, or some other JSON value. -/
inductive LdBlock where
  | parseError
  | objE (isEvent : Bool) (e : LdEvent)
  | arrE (es : List (Bool × LdEvent))
  | graphE (es : List (Bool × LdEvent))
  | otherJson

/-- A Bandsintown event object as navigated by the Next.js branch; empty
strings model absent fields, `has_venue` is the truthiness of `.venue`
(used only by the looks-like-event-data heuristic). -/
structure BitEvent where
  title : String
  name : String
  artist_name : String
  event_type : String
  has_venue : Bool
  datetime : String
  date : String
  starts_at : String
  date_description : String
  time_description : String
  venue_name : String
  location_name : String
  place_name : String
  url : String
  ticket_url : String
  links_tickets : String
  links_event : String

/-- A `<script type="application/json">` block: parse error, parsed JSON
without `props.pageProps`, or a pageProps object with the three candidate
event-array paths (`events`, `upcomingEvents`, flattened
`dehydratedState.queries` data); `none` models an absent or non-array path. -/
inductive NextBlock where
  | parseError
  | noPageProps
  | pageProps (events upcomingEvents dehydrated : Option (List BitEvent))

/-- A fetched raw document, as observed through the external parsers:
whether the text contains the `window.__SERVER_DATA__` marker, the parsed
SERVER_DATA object (when the regex matched and `JSON.parse` succeeded),
the `ld+json` blocks, the `application/json` blocks, and document-level
cheerio selection `$(sel)`. -/
structure RawDoc where
  hasServerDataMarker : Bool
  serverData : Option ServerData
  ldBlocks : List LdBlock
  nextBlocks : List NextBlock
  find : String → List Container

/-! ## Date classification -/

def dayNames : List String :=
  ["sunday", "monday", "tuesday", "wednesday", "thursday", "friday", "saturday"]

def shortDayNames : List String :=
  ["sun", "mon", "tue", "wed", "thu", "fri", "sat"]

def monthNames : List String :=
  ["january", "february", "march", "april", "may", "june",
   "july", "august", "september", "october", "november", "december"]

def shortMonthNames : List String :=
  ["jan", "feb", "mar", "apr", "may", "jun", "jul", "aug", "sep", "oct", "nov", "dec"]

/-- Array indexing as the code performs it: an out-of-range index yields
JavaScript `undefined`, which `String.prototype.includes` coerces to the
string `"undefined"`.  (A 1-based month is looked up at `month - 1`; the
embedding uses truncated natural subtraction, faithful for `month ≥ 1`.) -/
def jsIdx (xs : List String) (i : Nat) : String :=
  xs.getD i "undefined"

/-- The day/month/year equality test `getDate() === todayDate &&
getMonth() === todayMonth - 1 && getFullYear() === todayYear` applied to a
possibly-invalid date (all comparisons are false on an Invalid Date). -/
def isTodayDV (ref : RefDate) : Option DateVal → Bool
  | none => false
  | some dv => dv.day = ref.day && dv.month0 = (ref.month : Int) - 1 && dv.year = ref.year

/-- The extraction-stage heuristic `isToday` computed from the resolved date
text in the HTML selector path of `extractEvents`
(src/process-html.js lines 873-902): the keywords "today"/"tonight", or the
reference day-of-month as a plain substring together with the reference month
name (full or short) or the reference short weekday name. -/
def htmlIsToday (ref : RefDate) (date : String) : Bool :=
  if date = "" then false
  else
    let lowerDate := lowerStr date
    let kw := strIncludes lowerDate "today" || strIncludes lowerDate "tonight"
    if strIncludes lowerDate (toString ref.day) then
      kw || strIncludes lowerDate (jsIdx monthNames (ref.month - 1)) ||
        strIncludes lowerDate (jsIdx shortMonthNames (ref.month - 1)) ||
        strIncludes lowerDate (jsIdx shortDayNames ref.weekday)
    else kw

/-- The month names other than the reference month, full and short
(src/unnamed/part_002 lines 200-201). -/
def otherMonthsOf (ref : RefDate) : List String :=
  (monthNames ++ shortMonthNames).filter fun m =>
    m ≠ jsIdx monthNames (ref.month - 1) && m ≠ jsIdx shortMonthNames (ref.month - 1)

/-- The purely textual checks of the `todaysEvents` filter
(src/unnamed/part_002 lines 171-219): keywords; weekday+month+day; month name
with a delimited day and no other month name; word-bounded `month.day` and
`month/day` numeric patterns. -/
def todaysTextChecks (ref : RefDate) (lowerDate : String) : Bool :=
  let mn := jsIdx monthNames (ref.month - 1)
  let smn := jsIdx shortMonthNames (ref.month - 1)
  (strIncludes lowerDate "today" || strIncludes lowerDate "tonight") ||
  ((strIncludes lowerDate (jsIdx dayNames ref.weekday) ||
      strIncludes lowerDate (jsIdx shortDayNames ref.weekday)) &&
    (strIncludes lowerDate mn || strIncludes lowerDate smn) &&
    strIncludes lowerDate (toString ref.day)) ||
  ((strIncludes lowerDate mn || strIncludes lowerDate smn) &&
    (strIncludes lowerDate (" " ++ toString ref.day) ||
      strIncludes lowerDate (toString ref.day ++ ",") ||
      strIncludes lowerDate (toString ref.day ++ " ") ||
      strEndsWith lowerDate (toString ref.day)) &&
    !((otherMonthsOf ref).any fun m => strIncludes lowerDate m)) ||
  boundedIncludes lowerDate (toString ref.month ++ "." ++ toString ref.day) ||
  boundedIncludes lowerDate (toString ref.month ++ "/" ++ toString ref.day)

/-- `new Date(todayYear, month - 1, day)` for the bare `M.D` / `M/D` branches
of the `todaysEvents` parse attempt.  The JavaScript constructor normalises
out-of-range fields; the embedding keeps them as given, faithful for
in-range (canonical) month/day values, which is all the checked comparisons
can match anyway. -/
def jsMkDate (y m d : Nat) : DateVal :=
  { day := d, month0 := (m : Int) - 1, year := y }

/-- The two regular-expression driven numeric parses of the `todaysEvents`
parse attempt (src/unnamed/part_002 lines 228-235): `^\d+\.\d+$` and
`^\d+\/\d+$`, split and fed to `new Date(todayYear, month - 1, day)`.
Returns `none` when neither regex matches (the code then falls back to the
general `new Date(string)` parse). -/
def numericParse (ref : RefDate) (dateString : String) : Option DateVal :=
  if isNumSepNum dateString '.' then
    match splitChar '.' dateString with
    | [a, b] => some (jsMkDate ref.year (numOf a) (numOf b))
    | _ => none
  else if isNumSepNum dateString '/' then
    match splitChar '/' dateString with
    | [a, b] => some (jsMkDate ref.year (numOf a) (numOf b))
    | _ => none
  else none

/-- The field-by-field comparison of a parsed date against the reference
(src/unnamed/part_002 lines 243-245): day and month equal, year equal or 0. -/
def dvMatches (ref : RefDate) (dv : DateVal) : Bool :=
  dv.day = ref.day && dv.month0 = (ref.month : Int) - 1 &&
    (dv.year = ref.year || dv.year = 0)

/-- The parse attempt of the `todaysEvents` filter (src/unnamed/part_002
lines 221-252): numeric `M.D`/`M/D` forms, else the general `new Date(string)`
parse, compared against the reference date. -/
def todaysParseCheck (env : Env) (ref : RefDate) (lowerDate : String) : Bool :=
  let dateString := jsTrim lowerDate
  match numericParse ref dateString with
  | some dv => dvMatches ref dv
  | none =>
    match env.parse dateString with
    | some dv => dvMatches ref dv
    | none => false

/-- The date-text classification of the `todaysEvents` filter
(src/unnamed/part_002 lines 167-253), for a non-empty date text: the textual
checks, else the parse attempt.  (The original is a chain of early returns;
since every check is side-effect free this is the same disjunction.) -/
def todaysDateMatch (env : Env) (ref : RefDate) (d : String) : Bool :=
  let lowerDate := lowerStr d
  todaysTextChecks ref lowerDate || todaysParseCheck env ref lowerDate

/-- The `todaysEvents` filter predicate (src/unnamed/part_002 lines 162-256):
keep a record when it is already flagged `is_today`, or when its (non-empty)
date text classifies as today. -/
def todaysEventsFilter (env : Env) (ref : RefDate) (e : EventRec) : Bool :=
  e.is_today || (e.date ≠ "" && todaysDateMatch env ref e.date)

/-- `todaysEvents` (src/unnamed/part_002 line 162). -/
def todaysEvents (env : Env) (ref : RefDate) (es : List EventRec) : List EventRec :=
  es.filter (todaysEventsFilter env ref)

/-- The strict second-pass keep predicate on a date text
(src/unnamed/part_002 lines 277-306): drop when the text contains a weekday
name (full or short) whose index differs from the reference weekday, or when
some other day-of-month 1..31 occurs space-prefixed, comma-suffixed, or in a
word-bounded `refMonth/day` or `refMonth.day` pattern. -/
def strictKeepDate (ref : RefDate) (d : String) : Bool :=
  let lowerDate := lowerStr d
  if (List.range 7).any (fun i => i ≠ ref.weekday &&
      (strIncludes lowerDate (jsIdx dayNames i) ||
       strIncludes lowerDate (jsIdx shortDayNames i))) then false
  else if (((List.range 31).map (· + 1)).filter (· ≠ ref.day)).any (fun k =>
      strIncludes lowerDate (" " ++ toString k) ||
      strIncludes lowerDate (toString k ++ ",") ||
      boundedIncludes lowerDate (toString ref.month ++ "/" ++ toString k) ||
      boundedIncludes lowerDate (toString ref.month ++ "." ++ toString k)) then false
  else true

/-- The strict second-pass filter predicate on a record: records with an
empty date text are kept (src/unnamed/part_002 lines 275-308). -/
def strictKeepEvent (ref : RefDate) (e : EventRec) : Bool :=
  if e.date = "" then true else strictKeepDate ref e.date

/-- `strictlyFilteredEvents` (src/unnamed/part_002 line 275). -/
def strictlyFilteredEvents (ref : RefDate) (es : List EventRec) : List EventRec :=
  es.filter (strictKeepEvent ref)

/-! ## Extraction engine: JSON record constructors -/

/-- One SERVER_DATA result to a record (src/process-html.js lines 316-351):
skip on empty `name`; date/time formatted from
`new Date(start_date + 'T' + (start_time or '00:00'))`; venue falls back to
the source name; `is_today` by calendar equality. -/
def ebServerRec (env : Env) (ref : RefDate) (src : Source) (u : String)
    (e : EbResult) : Option EventRec :=
  if e.name = "" then none
  else
    let hasDate := e.start_date ≠ ""
    let dv := env.parse (e.start_date ++ "T" ++ (if e.start_time = "" then "00:00" else e.start_time))
    some
      { title := e.name
        date := if hasDate then env.fmtWdMD dv else ""
        time := if e.start_time ≠ "" then env.fmtHM (env.parse ("2000-01-01T" ++ e.start_time)) else ""
        url := e.url
        venue := if e.primary_venue_name = "" then src.source else e.primary_venue_name
        region := src.region
        source_url := u
        is_today := if hasDate then isTodayDV ref dv else false }

/-- One ld+json event to a record in the Eventbrite branch
(src/process-html.js lines 359-405): skip on empty `name`; the date object
comes from `startDate`, else `datePublished`. -/
def ebLdRec (env : Env) (ref : RefDate) (src : Source) (u : String)
    (e : LdEvent) : Option EventRec :=
  if e.name = "" then none
  else
    let hasDate := e.startDate ≠ "" || e.datePublished ≠ ""
    let dv := env.parse (if e.startDate ≠ "" then e.startDate else e.datePublished)
    some
      { title := e.name
        date := if hasDate then env.fmtWdMD dv else ""
        time := if hasDate then env.fmtHM dv else ""
        url := if e.url ≠ "" then e.url else e.offers_url
        venue := if e.location_name = "" then src.source else e.location_name
        region := src.region
        source_url := u
        is_today := if hasDate then isTodayDV ref dv else false }

/-- One schema.org event to a record, shared by the Bandsintown JSON-LD
branch (src/process-html.js lines 555-594) and the generic JSON-LD branch
(lines 640-679), whose bodies are identical on these shapes. -/
def schemaLdRec (env : Env) (ref : RefDate) (src : Source) (u : String)
    (e : LdEvent) : Option EventRec :=
  if e.name = "" then none
  else
    let hasDate := e.startDate ≠ ""
    let dv := env.parse e.startDate
    some
      { title := e.name
        date := if hasDate then env.fmtWdMD dv else ""
        time := if hasDate then env.fmtHM dv else ""
        url := if e.url ≠ "" then e.url else e.offers_url
        venue := if e.location_name = "" then src.source else e.location_name
        region := src.region
        source_url := u
        is_today := if hasDate then isTodayDV ref dv else false }

/-- `event.title || event.name || event.artist?.name || ''`
(src/process-html.js line 464). -/
def bitTitle (e : BitEvent) : String :=
  if e.title ≠ "" then e.title else if e.name ≠ "" then e.name else e.artist_name

/-- The first present of `datetime`, `date`, `starts_at`
(src/process-html.js lines 468-475); empty when none is present. -/
def bitDateSrc (e : BitEvent) : String :=
  if e.datetime ≠ "" then e.datetime else if e.date ≠ "" then e.date else e.starts_at

/-- `event.venue?.name || event.location?.name || event.place?.name || ''`
(src/process-html.js lines 490-492). -/
def bitVenue (e : BitEvent) : String :=
  if e.venue_name ≠ "" then e.venue_name
  else if e.location_name ≠ "" then e.location_name else e.place_name

/-- `event.url || event.ticket_url || event.links?.tickets ||
event.links?.event || ''` (src/process-html.js lines 495-498). -/
def bitUrl (e : BitEvent) : String :=
  if e.url ≠ "" then e.url
  else if e.ticket_url ≠ "" then e.ticket_url
  else if e.links_tickets ≠ "" then e.links_tickets
  else e.links_event

/-- One Bandsintown Next.js event to a record (src/process-html.js lines
462-518): skip when the resolved title is empty; date/time formatted from the
first timestamp field, else the description fields; venue falls back to the
source name. -/
def bitRec (env : Env) (ref : RefDate) (src : Source) (u : String)
    (e : BitEvent) : Option EventRec :=
  if bitTitle e = "" then none
  else
    some
      { title := bitTitle e
        date := if bitDateSrc e ≠ "" then env.fmtWdMD (env.parse (bitDateSrc e))
          else e.date_description
        time := if bitDateSrc e ≠ "" then env.fmtHM (env.parse (bitDateSrc e))
          else e.time_description
        url := bitUrl e
        venue := if bitVenue e = "" then src.source else bitVenue e
        region := src.region
        source_url := u
        is_today := if bitDateSrc e ≠ "" then isTodayDV ref (env.parse (bitDateSrc e))
          else false }

/-! ## Extraction engine: branch dispatch -/

/-- The JSON data the Eventbrite branch settles on: a SERVER_DATA object, a
single ld+json Event object, or an ld+json array containing an Event. -/
inductive EbJsonData where
  | server (sd : ServerData)
  | ldSingle (e : LdEvent)
  | ldMany (es : List LdEvent)

/-- The Eventbrite ld+json scan (src/process-html.js lines 282-307): the
first block that parses and is an Event object, or an array some of whose
elements are Events (the whole array is kept). -/
def ebPickLd : List LdBlock → Option EbJsonData
  | [] => none
  | LdBlock.objE true e :: _ => some (EbJsonData.ldSingle e)
  | LdBlock.arrE es :: rest =>
    if es.any (fun p => p.1) then some (EbJsonData.ldMany (es.map (fun p => p.2)))
    else ebPickLd rest
  | _ :: rest => ebPickLd rest

/-- The `jsonData` value the Eventbrite branch settles on: SERVER_DATA when
the marker is present and it parsed (src/process-html.js lines 266-279), else
the ld+json scan (lines 282-307). -/
def ebJsonDataOf (marker : Bool) (sd : Option ServerData) (lds : List LdBlock) :
    Option EbJsonData :=
  match (if marker then sd else none) with
  | some s => some (EbJsonData.server s)
  | none => ebPickLd lds

/-- The Eventbrite branch (src/process-html.js lines 258-420): records from
`search_data.events.results`, or from the wrapped ld+json events. -/
def eventbritePhase (env : Env) (ref : RefDate) (src : Source) (u : String)
    (marker : Bool) (sd : Option ServerData) (lds : List LdBlock) : List EventRec :=
  match ebJsonDataOf marker sd lds with
  | some (EbJsonData.server s) =>
    match s.results with
    | some rs => rs.filterMap (ebServerRec env ref src u)
    | none => []
  | some (EbJsonData.ldSingle e) => [e].filterMap (ebLdRec env ref src u)
  | some (EbJsonData.ldMany es) => es.filterMap (ebLdRec env ref src u)
  | none => []

/-- The looks-like-event-data heuristic on the first array element
(src/process-html.js line 458). -/
def bitHeur (e : BitEvent) : Bool :=
  e.title ≠ "" || e.name ≠ "" || e.event_type ≠ "" || e.has_venue

/-- The three candidate paths of one Next.js data block
(src/process-html.js lines 445-451). -/
def bitPathsOf : NextBlock → List (Option (List BitEvent))
  | NextBlock.pageProps a b c => [a, b, c]
  | _ => []

/-- The inner path loop of the Bandsintown Next.js approach
(src/process-html.js lines 453-527): skip non-arrays and empty arrays; on a
heuristic match set the found flag and return the records if any were
produced, else keep looking. -/
def bitScanPaths (env : Env) (ref : RefDate) (src : Source) (u : String)
    (found : Bool) : List (Option (List BitEvent)) → List EventRec × Bool
  | [] => ([], found)
  | p :: rest =>
    match p with
    | some (e0 :: es) =>
      if bitHeur e0 then
        let recs := (e0 :: es).filterMap (bitRec env ref src u)
        if recs.isEmpty then bitScanPaths env ref src u true rest
        else (recs, true)
      else bitScanPaths env ref src u found rest
    | _ => bitScanPaths env ref src u found rest

/-- The outer script-tag loop of the Bandsintown Next.js approach
(src/process-html.js lines 431-534). -/
def bitScanBlocks (env : Env) (ref : RefDate) (src : Source) (u : String)
    (found : Bool) : List NextBlock → List EventRec × Bool
  | [] => ([], found)
  | b :: rest =>
    let pr := bitScanPaths env ref src u found (bitPathsOf b)
    if pr.1.isEmpty then bitScanBlocks env ref src u pr.2 rest else pr

/-- The event data recognised by the Bandsintown schema.org approach
(src/process-html.js lines 548-549): a single Event object, or an array whose
first element is an Event (the whole array is kept). -/
def bitLdData : LdBlock → Option (List LdEvent)
  | LdBlock.objE true e => some [e]
  | LdBlock.arrE ((true, e) :: rest) => some (e :: rest.map (fun p => p.2))
  | _ => none

/-- The Bandsintown schema.org scan (src/process-html.js lines 537-605):
first block with recognised event data whose records are non-empty. -/
def bitLdScan (env : Env) (ref : RefDate) (src : Source) (u : String) :
    List LdBlock → List EventRec
  | [] => []
  | b :: rest =>
    match bitLdData b with
    | some es =>
      let recs := es.filterMap (schemaLdRec env ref src u)
      if recs.isEmpty then bitLdScan env ref src u rest else recs
    | none => bitLdScan env ref src u rest

/-- The Bandsintown branch (src/process-html.js lines 423-614): the Next.js
approach, then (only when it never identified event data) the schema.org
approach. -/
def bandsintownPhase (env : Env) (ref : RefDate) (src : Source) (u : String)
    (nexts : List NextBlock) (lds : List LdBlock) : List EventRec :=
  let pr := bitScanBlocks env ref src u false nexts
  if pr.1.isEmpty then
    if pr.2 then [] else bitLdScan env ref src u lds
  else pr.1

/-- The event data recognised by the generic JSON-LD branch
(src/process-html.js lines 633-635): a single Event object, an array whose
first element is an Event, or the Event entries of an `@graph` array. -/
def genLdData : LdBlock → Option (List LdEvent)
  | LdBlock.objE true e => some [e]
  | LdBlock.arrE ((true, e) :: rest) => some (e :: rest.map (fun p => p.2))
  | LdBlock.graphE es => some ((es.filter (fun p => p.1)).map (fun p => p.2))
  | _ => none

/-- The generic JSON-LD scan (src/process-html.js lines 617-695): first block
with non-empty recognised event data whose records are non-empty. -/
def genericLdPhase (env : Env) (ref : RefDate) (src : Source) (u : String) :
    List LdBlock → List EventRec
  | [] => []
  | b :: rest =>
    match genLdData b with
    | some es =>
      if es.isEmpty then genericLdPhase env ref src u rest
      else
        let recs := es.filterMap (schemaLdRec env ref src u)
        if recs.isEmpty then genericLdPhase env ref src u rest else recs
    | none => genericLdPhase env ref src u rest

/-! ## Extraction engine: HTML selector path -/

/-- Title resolution for one container (src/process-html.js lines 768-780):
trimmed text of the first matching descendant; if empty and the matched set
has anchor descendants, the trimmed text of the first such anchor. -/
def resolveTitle (src : Source) (c : Container) : String :=
  if src.title_selector = "" then ""
  else
    let els := c.find src.title_selector
    let t := jsTrim ((els.head?.map Elem.text).getD "")
    if t = "" then
      let ans := els.flatMap Elem.anchorTexts
      if ans.isEmpty then "" else jsTrim (ans.head?.getD "")
    else t

/-- Date/time resolution for one container (src/process-html.js lines
782-829): the non-empty trimmed texts of all matching descendants, joined
with single spaces, whitespace runs collapsed, trimmed. -/
def resolveJoined (sel : String) (c : Container) : String :=
  if sel = "" then ""
  else jsTrim (collapseWs (joinSpace
    (((c.find sel).map (fun e => jsTrim e.text)).filter (fun t => t ≠ ""))))

/-- Raw `href` of the first descendant matching the url selector
(src/process-html.js lines 837-839); empty when the selector is missing, no
element matches, or the element has no `href`. -/
def resolveHref (src : Source) (c : Container) : String :=
  if src.url_selector = "" then ""
  else ((c.find src.url_selector).head?.bind Elem.href).getD ""

/-- Relative-URL resolution (src/process-html.js lines 853-861): a non-empty
href not starting with "http" is resolved against the source page URL; if the
URL constructor throws, the original string is kept. -/
def resolveUrlField (env : Env) (sourceUrl raw : String) : String :=
  if raw ≠ "" && !strStartsWith raw "http" then
    match env.resolveUrl sourceUrl raw with
    | some abs => abs
    | none => raw
  else raw

/-- The Songkick venue special case (src/process-html.js lines 832-834):
the trimmed text of the first descendant matching the time selector. -/
def songkickVenue (src : Source) (c : Container) : String :=
  if src.source = "Songkick" ∧ src.time_selector ≠ "" then
    jsTrim (((c.find src.time_selector).head?.map Elem.text).getD "")
  else ""

/-- Processing of one container (the body of `containers.each`,
src/process-html.js lines 754-931, without the index cap): resolve the
fields, drop the container when the title is empty or longer than 100
characters, classify the date text, and push the record — with the Songkick
special case mapping the time selector's text to the venue and forcing the
time empty. -/
def processContainer (env : Env) (ref : RefDate) (src : Source) (u : String)
    (c : Container) : Option EventRec :=
  if resolveTitle src c = "" ∨ 100 < (resolveTitle src c).length then none
  else
    some (if src.source = "Songkick" then
      { title := resolveTitle src c
        date := resolveJoined src.date_selector c
        time := ""
        url := resolveUrlField env u (resolveHref src c)
        venue := if songkickVenue src c = "" then src.source else songkickVenue src c
        region := src.region, source_url := u
        is_today := htmlIsToday ref (resolveJoined src.date_selector c) }
    else
      { title := resolveTitle src c
        date := resolveJoined src.date_selector c
        time := resolveJoined src.time_selector c
        url := resolveUrlField env u (resolveHref src c)
        venue := src.source
        region := src.region, source_url := u
        is_today := htmlIsToday ref (resolveJoined src.date_selector c) })

/-- The container loop with its index cap (src/process-html.js lines
750-932): containers at index 30 or beyond are skipped, iteration
continues. -/
def processFrom (env : Env) (ref : RefDate) (src : Source) (u : String)
    (i : Nat) : List Container → List EventRec
  | [] => []
  | c :: cs =>
    if 30 ≤ i then processFrom env ref src u (i + 1) cs
    else
      match processContainer env ref src u c with
      | some r => r :: processFrom env ref src u (i + 1) cs
      | none => processFrom env ref src u (i + 1) cs

/-- The standard HTML extraction (src/process-html.js lines 701-934): zero
records without a container selector, else the capped container loop over
the document-level selection. -/
def htmlPhase (env : Env) (ref : RefDate) (src : Source) (u : String)
    (find : String → List Container) : List EventRec :=
  if src.container_selector = "" then []
  else processFrom env ref src u 0 (find src.container_selector)

/-- `extractEvents(html, source, sourceUrl)` (src/process-html.js lines
241-935): for `extraction_type = 'json'`, the Eventbrite branch (on the
matching source name), then Bandsintown, then the generic JSON-LD scan, each
returning as soon as it produced at least one record; standard HTML
extraction otherwise and as the final fallback.  Total function: every
exception path of the original is a caught, record-free path. -/
def extractEvents (env : Env) (ref : RefDate) (src : Source) (u : String)
    (doc : RawDoc) : List EventRec :=
  if src.extraction_type = "json" then
    let eb := if src.source = "Eventbrite" then
      eventbritePhase env ref src u doc.hasServerDataMarker doc.serverData doc.ldBlocks else []
    if eb.isEmpty then
      let bit := if src.source = "Bandsintown" then
        bandsintownPhase env ref src u doc.nextBlocks doc.ldBlocks else []
      if bit.isEmpty then
        let gen := genericLdPhase env ref src u doc.ldBlocks
        if gen.isEmpty then htmlPhase env ref src u doc.find else gen
      else bit
    else eb
  else htmlPhase env ref src u doc.find

/-- The same document with the container-selector match list truncated to its
first 30 elements (all other selector results and all parsed JSON blocks
unchanged). -/
def capContainers (src : Source) (doc : RawDoc) : RawDoc :=
  { doc with find := fun s =>
      if s = src.container_selector then (doc.find s).take 30 else doc.find s }

/-! ## Aggregation: grouping by region and venue -/

/-- Region key with the empty-region default (src/process-html.js line 189). -/
def regionKey (e : EventRec) : String :=
  if e.region = "" then "Other Areas" else e.region

/-- Venue key with the empty-venue default (src/process-html.js line 190). -/
def venueKey (e : EventRec) : String :=
  if e.venue = "" then "Unknown Venue" else e.venue

/-- Insert a record at the end of its venue bucket, creating the bucket at
the end on first use (JavaScript object property insertion order). -/
def pushVenue (v : String) (e : EventRec) :
    List (String × List EventRec) → List (String × List EventRec)
  | [] => [(v, [e])]
  | (v', es) :: rest =>
    if v' = v then (v', es ++ [e]) :: rest else (v', es) :: pushVenue v e rest

/-- Insert a record under its region and venue keys, creating missing levels
at the end (src/process-html.js lines 192-200). -/
def pushRegion (r v : String) (e : EventRec) :
    List (String × List (String × List EventRec)) →
    List (String × List (String × List EventRec))
  | [] => [(r, [(v, [e])])]
  | (r', vs) :: rest =>
    if r' = r then (r', pushVenue v e vs) :: rest else (r', vs) :: pushRegion r v e rest

/-- The grouping pass `eventsByRegion` (src/process-html.js lines 186-201):
one left-to-right pass over the flat list, inserting each record under its
(defaulted) region and venue. -/
def eventsByRegion (es : List EventRec) : List (String × List (String × List EventRec)) :=
  es.foldl (fun acc e => pushRegion (regionKey e) (venueKey e) e acc) []

def venueLookup (v : String) : List (String × List EventRec) → List EventRec
  | [] => []
  | (v', es) :: rest => if v' = v then es else venueLookup v rest

/-- The sequence stored under region `r` and venue `v` in the grouping
structure (empty when the bucket does not exist). -/
def groupLookup (r v : String) :
    List (String × List (String × List EventRec)) → List EventRec
  | [] => []
  | (r', vs) :: rest => if r' = r then venueLookup v vs else groupLookup r v rest

/-! ## Specification-side definitions (for refinement and amended claims) -/

/-- Definition following the specification's words for the url field of an
HTML-extracted record: the `href` attribute of the first element matching the
url selector inside the container; if present and not already absolute,
resolved against the source's page URL; if resolution fails, the original
string unchanged. -/
def specResolvedUrl (env : Env) (src : Source) (sourceUrl : String)
    (c : Container) : String :=
  let href := ((c.find src.url_selector).head?.bind Elem.href).getD ""
  if href = "" then ""
  else if strStartsWith href "http" then href
  else
    match env.resolveUrl sourceUrl href with
    | some abs => abs
    | none => href

/-- Modelled from the spec: the external WHATWG URL resolver (Node's `URL`
class), restricted to the case the specification's example exercises — an
absolute http(s) base and a path-absolute reference, which resolves to the
base's origin followed by the reference. -/
def simpleResolve (base rel : String) : Option String :=
  if strStartsWith rel "/" then
    if strStartsWith base "https://" || strStartsWith base "http://" then
      let schemeLen := if strStartsWith base "https://" then 8 else 7
      let afterScheme := String.mk (base.data.drop schemeLen)
      let host := String.mk (afterScheme.data.takeWhile
        (fun ch => ch ≠ '/' && ch ≠ '?' && ch ≠ '#'))
      if host = "" then none
      else some (String.mk (base.data.take schemeLen) ++ host ++ rel)
    else none
  else none

/-- The removal condition of the strict second pass, stated in
specification form: the date text contains a weekday name (full or
three-letter) for a weekday index other than the reference weekday, or some
day-of-month `k` (1..31, different from the reference day) occurs
space-prefixed, comma-suffixed, or as a word-bounded `refMonth/k` or
`refMonth.k` token.  The space-prefixed and comma-suffixed forms carry no
month context at all. -/
def strictRemovalSpec (ref : RefDate) (d : String) : Prop :=
  (∃ i, i < 7 ∧ i ≠ ref.weekday ∧
    (strIncludes (lowerStr d) (jsIdx dayNames i) = true ∨
     strIncludes (lowerStr d) (jsIdx shortDayNames i) = true)) ∨
  (∃ k, 1 ≤ k ∧ k ≤ 31 ∧ k ≠ ref.day ∧
    (strIncludes (lowerStr d) (" " ++ toString k) = true ∨
     strIncludes (lowerStr d) (toString k ++ ",") = true ∨
     boundedIncludes (lowerStr d) (toString ref.month ++ "/" ++ toString k) = true ∨
     boundedIncludes (lowerStr d) (toString ref.month ++ "." ++ toString k) = true))

/-! ## Concrete instances used by witnesses and counterexamples -/

/-- A trivial external environment: every date string is an Invalid Date,
formatters return the empty string, URL resolution always throws. -/
def envTrivial : Env :=
  { parse := fun _ => none
    fmtWdMD := fun _ => ""
    fmtHM := fun _ => ""
    resolveUrl := fun _ _ => none }

/-- The external environment with the WHATWG URL resolver model. -/
def envResolve : Env :=
  { envTrivial with resolveUrl := simpleResolve }

/-- Reference date of the specification's examples: May 2, 2025, a Friday. -/
def refMay2 : RefDate :=
  { day := 2, month := 5, year := 2025, weekday := 5 }

/-- A 101-character title. -/
def longTitle : String :=
  String.mk (List.replicate 101 'a')

/-- An Eventbrite source descriptor with JSON extraction and no selectors. -/
def srcEB : Source :=
  { source := "Eventbrite", region := "San Francisco", extraction_type := "json"
    container_selector := "", title_selector := "", date_selector := ""
    time_selector := "", url_selector := "" }

/-- A SERVER_DATA result with a 101-character name and no other fields. -/
def ebResLong : EbResult :=
  { name := longTitle, start_date := "", start_time := "", url := ""
    primary_venue_name := "" }

/-- An Eventbrite document whose SERVER_DATA holds the single event
`ebResLong`. -/
def docEB : RawDoc :=
  { hasServerDataMarker := true
    serverData := some { results := some [ebResLong] }
    ldBlocks := [], nextBlocks := [], find := fun _ => [] }

/-- The record `extractEvents` produces from `docEB`. -/
def recEB : EventRec :=
  { title := longTitle, date := "", time := "", url := ""
    venue := "Eventbrite", region := "San Francisco", source_url := "u"
    is_today := false }

/-- A standard source whose selectors are `"c"`/`"t"`/`"d"`. -/
def srcStdSel : Source :=
  { source := "VenueZ", region := "SF", extraction_type := "standard"
    container_selector := "c", title_selector := "t", date_selector := "d"
    time_selector := "", url_selector := "" }

/-- A container whose title text is "X" and whose date text is
"Fri May 12". -/
def cMay12 : Container :=
  { find := fun s =>
      if s = "t" then [{ text := "X", href := none, anchorTexts := [] }]
      else if s = "d" then [{ text := "Fri May 12", href := none, anchorTexts := [] }]
      else [] }

/-- A document with the single container `cMay12`. -/
def docMay12 : RawDoc :=
  { hasServerDataMarker := false, serverData := none, ldBlocks := []
    nextBlocks := [], find := fun s => if s = "c" then [cMay12] else [] }

/-- The record `extractEvents` produces from `docMay12`. -/
def recMay12 : EventRec :=
  { title := "X", date := "Fri May 12", time := "", url := ""
    venue := "VenueZ", region := "SF", source_url := "u", is_today := true }

/-- A standard source with no container selector. -/
def srcNoContainer : Source :=
  { source := "S", region := "", extraction_type := "standard"
    container_selector := "", title_selector := "t", date_selector := ""
    time_selector := "", url_selector := "" }

/-- A document with no parsed content at all. -/
def docEmpty : RawDoc :=
  { hasServerDataMarker := false, serverData := none, ldBlocks := []
    nextBlocks := [], find := fun _ => [] }

/-- A record marked as today whose date text mentions the stray day number 8
with no month context ("doors 8"). -/
def evDoors8 : EventRec :=
  { title := "Show", date := "May 2 doors 8", time := "", url := ""
    venue := "V", region := "SF", source_url := "u", is_today := true }

/-- A standard source with a url selector. -/
def srcUrlSel : Source :=
  { source := "VenueU", region := "SF", extraction_type := "standard"
    container_selector := "c", title_selector := "t", date_selector := ""
    time_selector := "", url_selector := "a" }

/-- A container with title "Band" and a relative link "/show/123". -/
def cRelLink : Container :=
  { find := fun s =>
      if s = "t" then [{ text := "Band", href := none, anchorTexts := [] }]
      else if s = "a" then [{ text := "", href := some "/show/123", anchorTexts := [] }]
      else [] }

/-- The record `processContainer` produces from `cRelLink` with base URL
`https://example.com/events/`. -/
def recRelLink : EventRec :=
  { title := "Band", date := "", time := "", url := "https://example.com/show/123"
    venue := "VenueU", region := "SF", source_url := "https://example.com/events/"
    is_today := false }

/-! ## Helper lemmas -/

lemma processFrom_ge (env : Env) (ref : RefDate) (src : Source) (u : String) :
    ∀ (cs : List Container) (i : Nat), 30 ≤ i →
      processFrom env ref src u i cs = [] := by
  intro cs
  induction cs with
  | nil => intro i _; rfl
  | cons c cs ih =>
    intro i hi
    simp only [processFrom, if_pos hi]
    exact ih (i + 1) (Nat.le_succ_of_le hi)

lemma processFrom_take (env : Env) (ref : RefDate) (src : Source) (u : String) :
    ∀ (cs : List Container) (i : Nat),
      processFrom env ref src u i cs =
        processFrom env ref src u i (cs.take (30 - i)) := by
  intro cs
  induction cs with
  | nil => intro i; simp
  | cons c cs ih =>
    intro i
    by_cases hi : 30 ≤ i
    · have h0 : 30 - i = 0 := Nat.sub_eq_zero_of_le hi
      rw [h0]
      simp only [List.take_zero]
      rw [processFrom_ge env ref src u _ i hi]
      rfl
    · have hk : 30 - i = (30 - (i + 1)) + 1 := by omega
      rw [hk, List.take_succ_cons]
      simp only [processFrom, if_neg hi]
      rw [ih (i + 1)]

lemma venueLookup_pushVenue (v : String) (e : EventRec) (q : String) :
    ∀ vs, venueLookup q (pushVenue v e vs) =
      if q = v then venueLookup q vs ++ [e] else venueLookup q vs := by
  intro vs
  induction vs with
  | nil =>
    by_cases h : q = v
    · subst h; simp [pushVenue, venueLookup]
    · have h' : ¬v = q := fun hh => h hh.symm
      simp [pushVenue, venueLookup, h, h']
  | cons p rest ih =>
    obtain ⟨v', es⟩ := p
    by_cases h1 : v' = v
    · subst h1
      by_cases h2 : q = v'
      · subst h2; simp [pushVenue, venueLookup]
      · have h2' : ¬v' = q := fun hh => h2 hh.symm
        simp [pushVenue, venueLookup, h2, h2']
    · by_cases h2 : q = v'
      · subst h2
        simp [pushVenue, venueLookup, h1]
      · have h2' : ¬v' = q := fun hh => h2 hh.symm
        simp [pushVenue, venueLookup, h1, h2', ih]

lemma groupLookup_pushRegion (r v : String) (e : EventRec) (q w : String) :
    ∀ gs, groupLookup q w (pushRegion r v e gs) =
      if q = r ∧ w = v then groupLookup q w gs ++ [e] else groupLookup q w gs := by
  intro gs
  induction gs with
  | nil =>
    by_cases h1 : q = r
    · subst h1
      by_cases h2 : w = v
      · subst h2; simp [pushRegion, groupLookup, venueLookup]
      · have h2' : ¬v = w := fun hh => h2 hh.symm
        have hq : ¬(q = q ∧ w = v) := fun hh => h2 hh.2
        simp [pushRegion, groupLookup, venueLookup, h2', hq, h2]
    · have h1' : ¬r = q := fun hh => h1 hh.symm
      have hq : ¬(q = r ∧ w = v) := fun hh => h1 hh.1
      simp [pushRegion, groupLookup, h1', hq]
  | cons p rest ih =>
    obtain ⟨r', vs⟩ := p
    by_cases h1 : r' = r
    · subst h1
      by_cases h2 : q = r'
      · subst h2
        by_cases h3 : w = v
        · simp [pushRegion, groupLookup, venueLookup_pushVenue, h3]
        · have hq : ¬(q = q ∧ w = v) := fun hh => h3 hh.2
          simp [pushRegion, groupLookup, venueLookup_pushVenue, h3, hq]
      · have h2' : ¬r' = q := fun hh => h2 hh.symm
        have hq : ¬(q = r' ∧ w = v) := fun hh => h2 hh.1
        simp [pushRegion, groupLookup, h2', hq]
    · by_cases h2 : q = r'
      · subst h2
        have hq : ¬(q = r ∧ w = v) := fun hh => h1 hh.1
        simp [pushRegion, groupLookup, h1, hq]
      · have h2' : ¬r' = q := fun hh => h2 hh.symm
        simp [pushRegion, groupLookup, h1, h2', ih]

lemma groupLookup_foldl (q w : String) :
    ∀ (es : List EventRec) (gs : List (String × List (String × List EventRec))),
      groupLookup q w (es.foldl (fun acc e => pushRegion (regionKey e) (venueKey e) e acc) gs) =
        groupLookup q w gs ++
          es.filter (fun e => regionKey e == q && venueKey e == w) := by
  intro es
  induction es with
  | nil => intro gs; simp
  | cons e es ih =>
    intro gs
    simp only [List.foldl_cons, List.filter_cons]
    rw [ih, groupLookup_pushRegion]
    by_cases h1 : q = regionKey e
    · by_cases h2 : w = venueKey e
      · rw [if_pos ⟨h1, h2⟩]
        have hb : (regionKey e == q && venueKey e == w) = true := by
          simp [beq_iff_eq, h1.symm, h2.symm]
        rw [hb]
        simp
      · rw [if_neg (fun hh => h2 hh.2)]
        have hb : (regionKey e == q && venueKey e == w) = false := by
          cases hbw : (venueKey e == w) with
          | false => simp [hbw]
          | true =>
            have hv : venueKey e = w := by simpa [beq_iff_eq] using hbw
            exact absurd hv.symm h2
        rw [hb]
        simp
    · rw [if_neg (fun hh => h1 hh.1)]
      have hb : (regionKey e == q && venueKey e == w) = false := by
        cases hbq : (regionKey e == q) with
        | false => simp [hbq]
        | true =>
          have hr : regionKey e = q := by simpa [beq_iff_eq] using hbq
          exact absurd hr.symm h1
      rw [hb]
      simp

/-- The per-record invariant each push site establishes: a non-empty title,
and — when the source name is non-empty — a non-empty venue. -/
def TitleVenueOK (src : Source) (r : EventRec) : Prop :=
  r.title ≠ "" ∧ (src.source ≠ "" → r.venue ≠ "")

lemma ebServerRec_ok (env : Env) (ref : RefDate) (src : Source) (u : String)
    (e : EbResult) (r : EventRec) (h : ebServerRec env ref src u e = some r) :
    TitleVenueOK src r := by
  unfold ebServerRec at h
  split at h
  · exact absurd h (by simp)
  · next hn =>
    obtain rfl := Option.some.inj h
    refine ⟨hn, fun hs => ?_⟩
    simp only []
    split
    · exact hs
    · next hv => exact hv

lemma ebLdRec_ok (env : Env) (ref : RefDate) (src : Source) (u : String)
    (e : LdEvent) (r : EventRec) (h : ebLdRec env ref src u e = some r) :
    TitleVenueOK src r := by
  unfold ebLdRec at h
  split at h
  · exact absurd h (by simp)
  · next hn =>
    obtain rfl := Option.some.inj h
    refine ⟨hn, fun hs => ?_⟩
    simp only []
    split
    · exact hs
    · next hv => exact hv

lemma schemaLdRec_ok (env : Env) (ref : RefDate) (src : Source) (u : String)
    (e : LdEvent) (r : EventRec) (h : schemaLdRec env ref src u e = some r) :
    TitleVenueOK src r := by
  unfold schemaLdRec at h
  split at h
  · exact absurd h (by simp)
  · next hn =>
    obtain rfl := Option.some.inj h
    refine ⟨hn, fun hs => ?_⟩
    simp only []
    split
    · exact hs
    · next hv => exact hv

lemma bitRec_ok (env : Env) (ref : RefDate) (src : Source) (u : String)
    (e : BitEvent) (r : EventRec) (h : bitRec env ref src u e = some r) :
    TitleVenueOK src r := by
  unfold bitRec at h
  split at h
  · exact absurd h (by simp)
  · next hn =>
    obtain rfl := Option.some.inj h
    refine ⟨hn, fun hs => ?_⟩
    simp only []
    split
    · exact hs
    · next hv => exact hv

lemma processContainer_ok (env : Env) (ref : RefDate) (src : Source) (u : String)
    (c : Container) (r : EventRec) (h : processContainer env ref src u c = some r) :
    r.title = resolveTitle src c ∧ r.title ≠ "" ∧ r.title.length ≤ 100 ∧
      (src.source ≠ "" → r.venue ≠ "") ∧
      r.url = resolveUrlField env u (resolveHref src c) := by
  unfold processContainer at h
  split at h
  · exact absurd h (by simp)
  · next hg =>
    push_neg at hg
    obtain rfl := Option.some.inj h
    by_cases hsk : src.source = "Songkick"
    · rw [if_pos hsk]
      refine ⟨rfl, hg.1, hg.2, fun hs => ?_, rfl⟩
      simp only []
      split
      · exact hs
      · next hv => exact hv
    · rw [if_neg hsk]
      exact ⟨rfl, hg.1, hg.2, fun hs => hs, rfl⟩

lemma eventbritePhase_ok (env : Env) (ref : RefDate) (src : Source) (u : String)
    (marker : Bool) (sd : Option ServerData) (lds : List LdBlock) (r : EventRec)
    (hr : r ∈ eventbritePhase env ref src u marker sd lds) :
    TitleVenueOK src r := by
  simp only [eventbritePhase] at hr
  split at hr
  · split at hr
    · obtain ⟨e, _, he⟩ := List.mem_filterMap.mp hr
      exact ebServerRec_ok env ref src u e r he
    · simp at hr
  · obtain ⟨e', _, he⟩ := List.mem_filterMap.mp hr
    exact ebLdRec_ok env ref src u e' r he
  · obtain ⟨e', _, he⟩ := List.mem_filterMap.mp hr
    exact ebLdRec_ok env ref src u e' r he
  · simp at hr

lemma bitScanPaths_ok (env : Env) (ref : RefDate) (src : Source) (u : String) :
    ∀ (ps : List (Option (List BitEvent))) (found : Bool) (r : EventRec),
      r ∈ (bitScanPaths env ref src u found ps).1 → TitleVenueOK src r := by
  intro ps
  induction ps with
  | nil => intro found r hr; simp [bitScanPaths] at hr
  | cons p rest ih =>
    intro found r hr
    simp only [bitScanPaths] at hr
    split at hr
    · split at hr
      · split at hr
        · exact ih true r hr
        · obtain ⟨e', _, he⟩ := List.mem_filterMap.mp hr
          exact bitRec_ok env ref src u e' r he
      · exact ih found r hr
    · exact ih found r hr

lemma bitScanBlocks_ok (env : Env) (ref : RefDate) (src : Source) (u : String) :
    ∀ (bs : List NextBlock) (found : Bool) (r : EventRec),
      r ∈ (bitScanBlocks env ref src u found bs).1 → TitleVenueOK src r := by
  intro bs
  induction bs with
  | nil => intro found r hr; simp [bitScanBlocks] at hr
  | cons b rest ih =>
    intro found r hr
    simp only [bitScanBlocks] at hr
    split at hr
    · exact ih _ r hr
    · exact bitScanPaths_ok env ref src u (bitPathsOf b) found r hr

lemma bitLdScan_ok (env : Env) (ref : RefDate) (src : Source) (u : String) :
    ∀ (lds : List LdBlock) (r : EventRec),
      r ∈ bitLdScan env ref src u lds → TitleVenueOK src r := by
  intro lds
  induction lds with
  | nil => intro r hr; simp [bitLdScan] at hr
  | cons b rest ih =>
    intro r hr
    simp only [bitLdScan] at hr
    split at hr
    · split at hr
      · exact ih r hr
      · obtain ⟨e', _, he⟩ := List.mem_filterMap.mp hr
        exact schemaLdRec_ok env ref src u e' r he
    · exact ih r hr

lemma bandsintownPhase_ok (env : Env) (ref : RefDate) (src : Source) (u : String)
    (nexts : List NextBlock) (lds : List LdBlock) (r : EventRec)
    (hr : r ∈ bandsintownPhase env ref src u nexts lds) :
    TitleVenueOK src r := by
  simp only [bandsintownPhase] at hr
  split at hr
  · split at hr
    · simp at hr
    · exact bitLdScan_ok env ref src u lds r hr
  · exact bitScanBlocks_ok env ref src u nexts false r hr

lemma genericLdPhase_ok (env : Env) (ref : RefDate) (src : Source) (u : String) :
    ∀ (lds : List LdBlock) (r : EventRec),
      r ∈ genericLdPhase env ref src u lds → TitleVenueOK src r := by
  intro lds
  induction lds with
  | nil => intro r hr; simp [genericLdPhase] at hr
  | cons b rest ih =>
    intro r hr
    simp only [genericLdPhase] at hr
    split at hr
    · split at hr
      · exact ih r hr
      · split at hr
        · exact ih r hr
        · obtain ⟨e', _, he⟩ := List.mem_filterMap.mp hr
          exact schemaLdRec_ok env ref src u e' r he
    · exact ih r hr

lemma processFrom_mem (env : Env) (ref : RefDate) (src : Source) (u : String) :
    ∀ (cs : List Container) (i : Nat) (r : EventRec),
      r ∈ processFrom env ref src u i cs →
        ∃ c, processContainer env ref src u c = some r := by
  intro cs
  induction cs with
  | nil => intro i r hr; simp [processFrom] at hr
  | cons c cs ih =>
    intro i r hr
    simp only [processFrom] at hr
    split at hr
    · exact ih (i + 1) r hr
    · split at hr
      · next r' heq =>
        rcases List.mem_cons.mp hr with h1 | h1
        · exact ⟨c, by rw [heq, h1]⟩
        · exact ih (i + 1) r h1
      · exact ih (i + 1) r hr

lemma htmlPhase_ok (env : Env) (ref : RefDate) (src : Source) (u : String)
    (find : String → List Container) (r : EventRec)
    (hr : r ∈ htmlPhase env ref src u find) : TitleVenueOK src r := by
  simp only [htmlPhase] at hr
  split at hr
  · simp at hr
  · obtain ⟨c, hc⟩ := processFrom_mem env ref src u _ 0 r hr
    obtain ⟨_, h1, _, h2, _⟩ := processContainer_ok env ref src u c r hc
    exact ⟨h1, h2⟩

/-- Every record `extractEvents` ever returns was pushed by one of the record
constructors, each of which guards the title and falls back to the source
name for the venue. -/
lemma extractEvents_ok (env : Env) (ref : RefDate) (src : Source) (u : String)
    (doc : RawDoc) (r : EventRec) (hr : r ∈ extractEvents env ref src u doc) :
    TitleVenueOK src r := by
  simp only [extractEvents] at hr
  repeat' split at hr
  all_goals
    first
      | simp at hr
      | exact htmlPhase_ok env ref src u doc.find r hr
      | exact genericLdPhase_ok env ref src u doc.ldBlocks r hr
      | exact bandsintownPhase_ok env ref src u doc.nextBlocks doc.ldBlocks r hr
      | exact eventbritePhase_ok env ref src u doc.hasServerDataMarker doc.serverData
          doc.ldBlocks r hr

lemma capContainers_marker (src : Source) (doc : RawDoc) :
    (capContainers src doc).hasServerDataMarker = doc.hasServerDataMarker := rfl

lemma capContainers_serverData (src : Source) (doc : RawDoc) :
    (capContainers src doc).serverData = doc.serverData := rfl

lemma capContainers_ldBlocks (src : Source) (doc : RawDoc) :
    (capContainers src doc).ldBlocks = doc.ldBlocks := rfl

lemma capContainers_nextBlocks (src : Source) (doc : RawDoc) :
    (capContainers src doc).nextBlocks = doc.nextBlocks := rfl

lemma capContainers_find_sel (src : Source) (doc : RawDoc) :
    (capContainers src doc).find src.container_selector =
      (doc.find src.container_selector).take 30 := by
  simp [capContainers]

lemma htmlPhase_cap (env : Env) (ref : RefDate) (src : Source) (u : String)
    (doc : RawDoc) :
    htmlPhase env ref src u (capContainers src doc).find =
      htmlPhase env ref src u doc.find := by
  simp only [htmlPhase]
  split
  · rfl
  · rw [capContainers_find_sel]
    have h := processFrom_take env ref src u (doc.find src.container_selector) 0
    rw [Nat.sub_zero] at h
    exact h.symm

lemma resolveUrlField_spec (env : Env) (u s : String) :
    resolveUrlField env u s =
      (if s = "" then ""
       else if strStartsWith s "http" then s
       else
         match env.resolveUrl u s with
         | some a => a
         | none => s) := by
  unfold resolveUrlField
  by_cases h1 : s = ""
  · simp [h1]
  · by_cases h2 : strStartsWith s "http" = true
    · simp [h1, h2]
    · simp [h1, h2]

lemma strictKeepDate_false_iff (ref : RefDate) (d : String) :
    strictKeepDate ref d = false ↔ strictRemovalSpec ref d := by
  have hA :
      (((List.range 7).any fun i => i ≠ ref.weekday &&
          (strIncludes (lowerStr d) (jsIdx dayNames i) ||
           strIncludes (lowerStr d) (jsIdx shortDayNames i))) = true) ↔
        (∃ i, i < 7 ∧ i ≠ ref.weekday ∧
          (strIncludes (lowerStr d) (jsIdx dayNames i) = true ∨
           strIncludes (lowerStr d) (jsIdx shortDayNames i) = true)) := by
    simp [List.any_eq_true, List.mem_range, Bool.and_eq_true, Bool.or_eq_true,
      decide_eq_true_eq]
  have hB :
      ((((List.range 31).map (· + 1)).filter (· ≠ ref.day)).any (fun k =>
          strIncludes (lowerStr d) (" " ++ toString k) ||
          strIncludes (lowerStr d) (toString k ++ ",") ||
          boundedIncludes (lowerStr d) (toString ref.month ++ "/" ++ toString k) ||
          boundedIncludes (lowerStr d) (toString ref.month ++ "." ++ toString k)) = true) ↔
        (∃ k, 1 ≤ k ∧ k ≤ 31 ∧ k ≠ ref.day ∧
          (strIncludes (lowerStr d) (" " ++ toString k) = true ∨
           strIncludes (lowerStr d) (toString k ++ ",") = true ∨
           boundedIncludes (lowerStr d) (toString ref.month ++ "/" ++ toString k) = true ∨
           boundedIncludes (lowerStr d) (toString ref.month ++ "." ++ toString k) = true)) := by
    simp only [List.any_eq_true, List.mem_filter, List.mem_map, List.mem_range,
      Bool.or_eq_true, decide_eq_true_eq]
    constructor
    · rintro ⟨k, ⟨⟨i, hi, rfl⟩, hk⟩, hp⟩
      exact ⟨i + 1, by omega, by omega, hk, by tauto⟩
    · rintro ⟨k, h1, h2, hk, hp⟩
      exact ⟨k, ⟨⟨k - 1, by omega, by omega⟩, hk⟩, by tauto⟩
  constructor
  · intro h
    simp only [strictKeepDate] at h
    split at h
    · next hc => exact Or.inl (hA.mp hc)
    · split at h
      · next hc => exact Or.inr (hB.mp hc)
      · exact absurd h (by simp)
  · intro h
    simp only [strictKeepDate]
    rcases h with h | h
    · rw [if_pos (hA.mpr h)]
    · split
      · rfl
      · rw [if_pos (hB.mpr h)]

/-! ## Claims -/

/-- Claim C1, counterexample: the claim "for every EventRecord returned by
extractEvents, regardless of extraction path, the title is non-empty and at
most 100 characters" is false — the Eventbrite SERVER_DATA JSON path only
checks that the name is non-empty, so a result with a 101-character name
yields a record whose title has 101 characters. -/
theorem json_title_cap_cex :
    (extractEvents envTrivial refMay2 srcEB "u" docEB).any
      (fun r => 100 < r.title.length) = true := by
  decide

/-- Claim C1, amended: every record returned by extractEvents on any
extraction path has a non-empty title, and the 100-character upper bound is
enforced by the HTML selector extraction path (a container whose resolved
title is empty or longer than 100 characters contributes no record); the
JSON extraction paths impose no upper bound. -/
theorem title_nonempty_html_cap :
    (∀ (env : Env) (ref : RefDate) (src : Source) (u : String) (doc : RawDoc)
       (r : EventRec), r ∈ extractEvents env ref src u doc → r.title ≠ "") ∧
    (∀ (env : Env) (ref : RefDate) (src : Source) (u : String) (c : Container)
       (r : EventRec), processContainer env ref src u c = some r →
         r.title ≠ "" ∧ r.title.length ≤ 100) :=
  ⟨fun env ref src u doc r hr => (extractEvents_ok env ref src u doc r hr).1,
   fun env ref src u c r h =>
     ⟨(processContainer_ok env ref src u c r h).2.1,
      (processContainer_ok env ref src u c r h).2.2.1⟩⟩

/-- Witness for the amended claim C1 at concrete inputs: the record produced
from the Eventbrite SERVER_DATA document has a non-empty title, and the
record produced from a concrete HTML container has a title of at most 100
characters. -/
theorem title_nonempty_html_cap_wit :
    recEB.title ≠ "" ∧ recMay12.title ≠ "" ∧ recMay12.title.length ≤ 100 :=
  ⟨title_nonempty_html_cap.1 envTrivial refMay2 srcEB "u" docEB recEB (by decide),
   (title_nonempty_html_cap.2 envTrivial refMay2 srcStdSel "u" cMay12 recMay12 (by decide)).1,
   (title_nonempty_html_cap.2 envTrivial refMay2 srcStdSel "u" cMay12 recMay12 (by decide)).2⟩

/-- Claim C2, counterexample: the claim says a record already marked as today
is removed by the strict second pass only when its date text has a
mismatching weekday name or another day-of-month in a month-matching
separator context.  The record with date text "May 2 doors 8" (marked
today, reference May 2) has neither — the 8 is only space-prefixed — yet
the strict pass removes it, because the space-prefixed pattern needs no
month context. -/
theorem strict_filter_space_digit_cex :
    todaysEvents envTrivial refMay2 [evDoors8] = [evDoors8] ∧
      strictlyFilteredEvents refMay2 [evDoors8] = [] := by
  constructor
  · decide
  · decide

/-- Claim C2, amended: the strict second pass removes a record (with
non-empty date text) exactly when the lowercased text contains a weekday
name — full or three-letter — whose index differs from the reference
weekday, or some day number k in 1..31 other than the reference day occurs
space-prefixed (" k") or comma-suffixed ("k,") with no month-context
requirement at all, or as a word-bounded "refMonth/k" or "refMonth.k"
token. -/
theorem strict_filter_removal_iff (ref : RefDate) (d : String) :
    strictKeepDate ref d = false ↔ strictRemovalSpec ref d :=
  strictKeepDate_false_iff ref d

/-- Claim C3: with reference date day 2, month 5 (May), year 2025, a Friday,
the today-report date classification accepts "5/2" (whole-token month/day
match), rejects "5/12", and rejects "Jan 2" — given that the external
general date parser does not read "jan 2" as a May date. -/
theorem today_report_numeric_cases (env : Env)
    (h : ∀ dv, env.parse "jan 2" = some dv → dv.month0 ≠ 4) :
    todaysDateMatch env refMay2 "5/2" = true ∧
    todaysDateMatch env refMay2 "5/12" = false ∧
    todaysDateMatch env refMay2 "Jan 2" = false := by
  refine ⟨?_, ?_, ?_⟩
  · have h1 : todaysTextChecks refMay2 (lowerStr "5/2") = true := by decide
    simp [todaysDateMatch, h1]
  · have h1 : todaysTextChecks refMay2 (lowerStr "5/12") = false := by decide
    have h2 : todaysParseCheck env refMay2 (lowerStr "5/12") = false := by
      simp only [todaysParseCheck]
      have hn : numericParse refMay2 (jsTrim (lowerStr "5/12")) =
          some { day := 12, month0 := 4, year := 2025 } := by decide
      rw [hn]
      show dvMatches refMay2 { day := 12, month0 := 4, year := 2025 } = false
      decide
    simp [todaysDateMatch, h1, h2]
  · have h1 : todaysTextChecks refMay2 (lowerStr "Jan 2") = false := by decide
    have h2 : todaysParseCheck env refMay2 (lowerStr "Jan 2") = false := by
      simp only [todaysParseCheck]
      have hn : numericParse refMay2 (jsTrim (lowerStr "Jan 2")) = none := by decide
      rw [hn]
      have ht : jsTrim (lowerStr "Jan 2") = "jan 2" := by decide
      rw [ht]
      rcases hp : env.parse "jan 2" with _ | dv
      · rfl
      · have hm := h dv hp
        have hdec : (decide (dv.month0 = (refMay2.month : Int) - 1)) = false := by
          apply decide_eq_false
          intro hx
          apply hm
          simpa using hx
        simp [dvMatches, hdec]
    simp [todaysDateMatch, h1, h2]

/-- Witness for claim C3 with the trivial environment, whose general parser
never succeeds. -/
theorem today_report_numeric_cases_wit :
    todaysDateMatch envTrivial refMay2 "5/2" = true ∧
    todaysDateMatch envTrivial refMay2 "5/12" = false ∧
    todaysDateMatch envTrivial refMay2 "Jan 2" = false :=
  today_report_numeric_cases envTrivial (fun _ h => Option.noConfusion h)

/-- Claim C4: the extraction-stage classifier marks "Friday, May 2" as today
for the reference date May 2, 2025 (a Friday); and for any reference whose
weekday is not Friday the strict second pass removes that date text, because
it contains the non-matching weekday name "friday". -/
theorem friday_may2_classification :
    htmlIsToday refMay2 "Friday, May 2" = true ∧
    ∀ w, w < 7 → w ≠ 5 →
      strictKeepDate { refMay2 with weekday := w } "Friday, May 2" = false := by
  refine ⟨by decide, ?_⟩
  intro w hw hne
  interval_cases w
  all_goals first
    | decide
    | exact absurd rfl hne

/-- Witness for claim C4 at the concrete weekday Saturday. -/
theorem friday_may2_classification_wit :
    htmlIsToday refMay2 "Friday, May 2" = true ∧
    strictKeepDate { refMay2 with weekday := 6 } "Friday, May 2" = false :=
  ⟨friday_may2_classification.1,
   friday_may2_classification.2 6 (by decide) (by decide)⟩

/-- Claim C5: HTML selector extraction processes only the first 30 container
matches — truncating the container-selector match list to its first 30
elements never changes the output of extractEvents, so a container at index
30 or beyond contributes no record regardless of its content. -/
theorem container_cap_thirty (env : Env) (ref : RefDate) (src : Source)
    (u : String) (doc : RawDoc) :
    extractEvents env ref src u doc =
      extractEvents env ref src u (capContainers src doc) := by
  simp only [extractEvents, capContainers_marker, capContainers_serverData,
    capContainers_ldBlocks, capContainers_nextBlocks]
  rw [htmlPhase_cap]

/-- Claim C6: for a source with standard extraction type and no container
selector, extractEvents returns the empty list on every document (the
function is total, so no exception is possible). -/
theorem standard_no_container_empty (env : Env) (ref : RefDate) (src : Source)
    (u : String) (doc : RawDoc) (ht : src.extraction_type = "standard")
    (hc : src.container_selector = "") :
    extractEvents env ref src u doc = [] := by
  unfold extractEvents
  rw [if_neg (by rw [ht]; decide)]
  unfold htmlPhase
  rw [if_pos hc]

/-- Witness for claim C6 at a concrete standard source without a container
selector. -/
theorem standard_no_container_empty_wit :
    extractEvents envTrivial refMay2 srcNoContainer "u" docEmpty = [] :=
  standard_no_container_empty envTrivial refMay2 srcNoContainer "u" docEmpty rfl rfl

/-- Claim C7: in HTML extraction with a url selector, the url of every
produced record equals the specification-side description — the href of the
first element matching the url selector, resolved against the source page
URL when present and not already absolute, kept unchanged when resolution
fails. -/
theorem url_resolution_refines (env : Env) (ref : RefDate) (src : Source)
    (u : String) (c : Container) (r : EventRec) (hsel : src.url_selector ≠ "")
    (h : processContainer env ref src u c = some r) :
    r.url = specResolvedUrl env src u c := by
  obtain ⟨_, _, _, _, hurl⟩ := processContainer_ok env ref src u c r h
  rw [hurl, resolveUrlField_spec]
  simp only [resolveHref, specResolvedUrl, if_neg hsel]

/-- Witness for claim C7 at the specification's example: source page URL
"https://example.com/events/" and href "/show/123" resolve to
"https://example.com/show/123". -/
theorem url_resolution_refines_wit :
    recRelLink.url = specResolvedUrl envResolve srcUrlSel
        "https://example.com/events/" cRelLink ∧
    specResolvedUrl envResolve srcUrlSel "https://example.com/events/" cRelLink =
      "https://example.com/show/123" :=
  ⟨url_resolution_refines envResolve refMay2 srcUrlSel "https://example.com/events/"
      cRelLink recRelLink (by decide) (by decide),
   by decide⟩

/-- Claim C8: grouping places each record under its region key (defaulting
to "Other Areas" when the region is empty) and venue key (defaulting to
"Unknown Venue" when the venue is empty), and the sequence stored in each
region/venue bucket is exactly the subsequence of the flat input with those
keys, in the original order. -/
theorem grouping_buckets_filter (es : List EventRec) (r v : String) :
    groupLookup r v (eventsByRegion es) =
      es.filter (fun e => regionKey e == r && venueKey e == v) := by
  have h := groupLookup_foldl r v es []
  simpa [eventsByRegion, groupLookup] using h

/-- Claim C9: when the source descriptor has a non-empty source name, every
record produced by extractEvents has a non-empty venue — each path either
uses a non-empty page-derived venue name or falls back to the source name —
so the "Unknown Venue" grouping default is never reached for such records. -/
theorem venue_nonempty_inv (env : Env) (ref : RefDate) (src : Source)
    (u : String) (doc : RawDoc) (r : EventRec) (hs : src.source ≠ "")
    (hr : r ∈ extractEvents env ref src u doc) : r.venue ≠ "" :=
  (extractEvents_ok env ref src u doc r hr).2 hs

/-- Witness for claim C9 at the concrete Eventbrite document. -/
theorem venue_nonempty_inv_wit : recEB.venue ≠ "" :=
  venue_nonempty_inv envTrivial refMay2 srcEB "u" docEB recEB (by decide) (by decide)

/-- Claim C10: the extraction-stage day check is plain substring
containment, so with reference day 2 in May the date text "Fri May 12" — a
different day — is still marked as today ("12" contains the digit "2" and
the month name matches). -/
theorem substring_isToday_false_positive :
    (extractEvents envTrivial refMay2 srcStdSel "u" docMay12).map
        (fun r => (r.date, r.is_today)) = [("Fri May 12", true)] ∧
      refMay2.day = 2 := by
  constructor
  · decide
  · rfl
